import Mathlib

/-!
Verification of the gesture-construction core of facebook-wda
(file wda/w3c_actions.py).

Modelling conventions:
* Python floats are modelled as exact rationals.  All arithmetic the
  source performs on coordinates and durations (+, -, *, /, pow) is
  exact on the inputs the claims discuss, so the rational model agrees
  with the float source there.
* Python dicts with a fixed discriminant key are modelled as inductive
  constructors; optional dict keys become Option-valued record fields
  (a key that was never written is none).
* Each builder object is represented by its private data field; a
  method that mutates self.__data and returns self becomes a function
  from the old data value to the new one.
* A Python exception (ZeroDivisionError in TouchActions.swipe) is
  modelled by returning none from an Option-valued function.
* Python f-string interpolation of an int uses its decimal
  representation, modelled by Nat.repr.
-/

/-! ### Decimal representation: a reference function and its injectivity

Nat.repr is the Lean counterpart of Python str(int).  The source derives
timeline identifiers from it, so identifier uniqueness reduces to the
injectivity of Nat.repr, proved here through an explicit decode.
-/

/-- Decimal digits of a natural number, most significant first.
Reference function used to state the behaviour of Nat.toDigitsCore. -/
def natChars (n : ℕ) : List Char :=
  if n < 10 then [Nat.digitChar n]
  else natChars (n / 10) ++ [Nat.digitChar (n % 10)]
termination_by n
decreasing_by exact Nat.div_lt_self (by omega) (by omega)

/-- Inverse of Nat.digitChar on decimal digits. -/
def digitVal (c : Char) : ℕ :=
  if c = '1' then 1 else if c = '2' then 2 else if c = '3' then 3 else
  if c = '4' then 4 else if c = '5' then 5 else if c = '6' then 6 else
  if c = '7' then 7 else if c = '8' then 8 else if c = '9' then 9 else 0

/-- Decode a most-significant-first decimal digit string. -/
def valChars (l : List Char) : ℕ :=
  l.foldl (fun a c => 10 * a + digitVal c) 0

theorem digitVal_digitChar (d : ℕ) (h : d < 10) :
    digitVal (Nat.digitChar d) = d := by
  interval_cases d <;> rfl

theorem foldl_val_append (l : List Char) (c : Char) (a : ℕ) :
    (l ++ [c]).foldl (fun a c => 10 * a + digitVal c) a =
      10 * l.foldl (fun a c => 10 * a + digitVal c) a + digitVal c := by
  rw [List.foldl_append]
  rfl

theorem valChars_natChars (n : ℕ) : valChars (natChars n) = n := by
  induction n using Nat.strong_induction_on with
  | _ n ih =>
    rw [natChars]
    by_cases h : n < 10
    · simp only [h, if_true, valChars, List.foldl_cons, List.foldl_nil]
      rw [digitVal_digitChar n h]
      omega
    · simp only [h, if_false]
      unfold valChars
      rw [foldl_val_append]
      have hrec := ih (n / 10) (Nat.div_lt_self (by omega) (by omega))
      unfold valChars at hrec
      rw [hrec, digitVal_digitChar (n % 10) (Nat.mod_lt n (by omega))]
      omega

theorem natChars_injective (a b : ℕ) (h : natChars a = natChars b) : a = b := by
  have := congrArg valChars h
  rwa [valChars_natChars, valChars_natChars] at this

theorem toDigitsCore_eq_natChars :
    ∀ f n acc, 0 < f → n < 10 ^ f →
      Nat.toDigitsCore 10 f n acc = natChars n ++ acc := by
  intro f
  induction f with
  | zero => intro n acc h; omega
  | succ f ih =>
    intro n acc _ hlt
    show (if n / 10 = 0 then Nat.digitChar (n % 10) :: acc
          else Nat.toDigitsCore 10 f (n / 10) (Nat.digitChar (n % 10) :: acc))
        = natChars n ++ acc
    by_cases h0 : n / 10 = 0
    · have hn : n < 10 := by omega
      rw [if_pos h0, natChars]
      simp only [hn, if_true]
      rw [Nat.mod_eq_of_lt hn]
      rfl
    · have hn : ¬ n < 10 := by omega
      have hdiv : n / 10 < 10 ^ f := by
        rw [Nat.div_lt_iff_lt_mul (by omega)]
        calc n < 10 ^ (f + 1) := hlt
          _ = 10 ^ f * 10 := by ring
      have hf : 0 < f := by
        by_contra hf0
        have : f = 0 := by omega
        subst this
        simp only [pow_zero] at hdiv
        omega
      rw [if_neg h0, ih (n / 10) (Nat.digitChar (n % 10) :: acc) hf hdiv]
      conv_rhs => rw [natChars]
      simp only [hn, if_false, List.append_assoc, List.singleton_append]

theorem repr_eq_natChars (n : ℕ) : Nat.repr n = String.mk (natChars n) := by
  have hlt : n < 10 ^ (n + 1) := by
    calc n < 10 ^ n := Nat.lt_pow_self (show (1:ℕ) < 10 by omega) n
      _ ≤ 10 ^ (n + 1) := Nat.pow_le_pow_right (by omega) (by omega)
  show (Nat.toDigitsCore 10 (n + 1) n []).asString = String.mk (natChars n)
  rw [toDigitsCore_eq_natChars (n + 1) n [] (by omega) hlt, List.append_nil]
  rfl

theorem nat_repr_injective (a b : ℕ) (h : Nat.repr a = Nat.repr b) : a = b := by
  rw [repr_eq_natChars, repr_eq_natChars] at h
  exact natChars_injective a b (congrArg String.data h)

theorem string_append_cancel (p s t : String) (h : p ++ s = p ++ t) : s = t := by
  apply String.ext
  have hd := congrArg String.data h
  rw [String.data_append, String.data_append] at hd
  exact List.append_cancel_left hd

theorem keyboard_ne_finger_append (s t : String) :
    "keyboard" ++ s ≠ "finger" ++ t := by
  intro h
  have hd := congrArg String.data h
  rw [String.data_append, String.data_append] at hd
  have hk : "keyboard".data = 'k' :: "eyboard".data := rfl
  have hf : "finger".data = 'f' :: "inger".data := rfl
  rw [hk, hf, List.cons_append, List.cons_append] at hd
  have := List.head_eq_of_cons_eq hd
  exact absurd this (by decide)

/-! ### Shared pause normalization

Both FingerAction.pause and TouchActions.pause run
  if second < 0: second = 0.5
and store second * 1000 in the appended primitive.
-/

/-- Stored millisecond value of a pause primitive for a requested
duration in seconds (source lines 127-129 and 544-549). -/
def pauseMs (second : ℚ) : ℚ :=
  (if second < 0 then (1 / 2 : ℚ) else second) * 1000

/-! ### Modern model: FingerMovement (w3c_actions.py lines 6-63)

The dict starts as only the discriminant key, type: pointerMove; the
discriminant is constant, so the record keeps the optional keys only.
-/

/-- The private data dict of a FingerMovement builder: optional keys
x, y, origin, duration (duration already converted to milliseconds). -/
structure FingerMovement where
  x : Option ℚ
  y : Option ℚ
  origin : Option String
  durationMs : Option ℚ
deriving DecidableEq

/-- FingerMovement.__init__: only the discriminant key is present. -/
def FingerMovement.new : FingerMovement :=
  ⟨none, none, none, none⟩

/-- FingerMovement.with_xy: sets keys x and y. -/
def FingerMovement.with_xy (m : FingerMovement) (x y : ℚ) : FingerMovement :=
  { m with x := some x, y := some y }

/-- FingerMovement.with_origin: sets key origin when element_uid is not
None, otherwise does nothing. -/
def FingerMovement.with_origin (m : FingerMovement) (element_uid : Option String) :
    FingerMovement :=
  match element_uid with
  | none => m
  | some u => { m with origin := some u }

/-- FingerMovement.with_duration: sets key duration to second*1000 when
second is not None, otherwise does nothing. -/
def FingerMovement.with_duration (m : FingerMovement) (second : Option ℚ) :
    FingerMovement :=
  match second with
  | none => m
  | some s => { m with durationMs := some (s * 1000) }

/-! ### Modern model: FingerAction (lines 66-130) -/

/-- One element of FingerAction.__data: a dict discriminated by its
type key. -/
inductive FingerPrim
  | pointerMove (m : FingerMovement)
  | pointerDown
  | pointerUp
  | pause (durationMs : ℚ)
deriving DecidableEq

/-- FingerAction.move: appends the movement dict. -/
def FingerAction.move (data : List FingerPrim) (movement : FingerMovement) :
    List FingerPrim :=
  data ++ [FingerPrim.pointerMove movement]

/-- FingerAction.down: appends a pointerDown dict. -/
def FingerAction.down (data : List FingerPrim) : List FingerPrim :=
  data ++ [FingerPrim.pointerDown]

/-- FingerAction.up: appends a pointerUp dict. -/
def FingerAction.up (data : List FingerPrim) : List FingerPrim :=
  data ++ [FingerPrim.pointerUp]

/-- FingerAction.pause: negative seconds are replaced by the default
0.5, then second*1000 is stored.  Source default argument: 0.5. -/
def FingerAction.pause (data : List FingerPrim) (second : ℚ) : List FingerPrim :=
  data ++ [FingerPrim.pause (pauseMs second)]

/-! ### Modern model: W3CActions (lines 133-249) -/

/-- One element of the actions list built by W3CActions.send_keys.
The source list comprehension
  [(a for a in [keyDownDict, keyUpDict]) for v in text]
produces one generator object per character, not the two dicts
themselves; the gen constructor models such a generator object holding
its pending (type, value) dicts, while dict models a plain key action
dict, the element the flat comprehension would have produced. -/
inductive KeyEntry
  | dict (type : String) (value : Char)
  | gen (pending : List (String × Char))
deriving DecidableEq

/-- One element of W3CActions.__data: a timeline dict.  A key timeline
carries id and actions; a pointer timeline carries id, the
parameters.pointerType value and actions. -/
inductive Timeline
  | key (id : String) (actions : List KeyEntry)
  | pointer (id : String) (pointerType : String) (actions : List FingerPrim)
deriving DecidableEq

/-- The id field of a timeline dict. -/
def Timeline.id : Timeline → String
  | .key i _ => i
  | .pointer i _ _ => i

/-- The literal text the source prepends to the set length when it
builds the id of a timeline: keyboard for key timelines (send_keys),
finger for pointer timelines (inject_touch_actions). -/
def Timeline.kindTag : Timeline → String
  | .key _ _ => "keyboard"
  | .pointer _ _ _ => "finger"

/-- W3CActions.send_keys (lines 149-169): appends one key timeline with
id keyboard{len(data)} whose actions list holds one generator object
per character of text. -/
def W3CActions.send_keys (data : List Timeline) (text : List Char) : List Timeline :=
  data ++ [Timeline.key ("keyboard" ++ Nat.repr data.length)
    (text.map fun v => KeyEntry.gen [("keyDown", v), ("keyUp", v)])]

/-- W3CActions.inject_touch_actions (lines 171-190): for each given
finger action sequence, appends one pointer timeline with id
finger{len(data)} (the length at that loop iteration) and
parameters.pointerType touch. -/
def W3CActions.inject_touch_actions (data : List Timeline) :
    List (List FingerPrim) → List Timeline
  | [] => data
  | action :: rest =>
      W3CActions.inject_touch_actions
        (data ++ [Timeline.pointer ("finger" ++ Nat.repr data.length) "touch" action])
        rest

/-- W3CActions.tap (lines 192-207): move(x, y, origin), down,
pause(second), up, injected as one finger timeline.  Source default for
second: 0.1. -/
def W3CActions.tap (data : List Timeline) (x y : ℚ) (element_uid : Option String)
    (second : ℚ) : List Timeline :=
  let movement := (FingerMovement.new.with_xy x y).with_origin element_uid
  let action :=
    FingerAction.up (FingerAction.pause (FingerAction.down (FingerAction.move [] movement)) second)
  W3CActions.inject_touch_actions data [action]

/-- W3CActions.press (lines 209-225): same body as tap.  Source default
for second: 2.0. -/
def W3CActions.press (data : List Timeline) (x y : ℚ) (element_uid : Option String)
    (second : ℚ) : List Timeline :=
  let movement := (FingerMovement.new.with_xy x y).with_origin element_uid
  let action :=
    FingerAction.up (FingerAction.pause (FingerAction.down (FingerAction.move [] movement)) second)
  W3CActions.inject_touch_actions data [action]

/-- W3CActions.swipe (lines 227-249): move(from), down,
pause(press_seconds), move(from), move(to, duration swipe_seconds),
pause(hold_seconds), up, injected as one finger timeline.  Source
defaults: press_seconds 0.25, swipe_seconds None, hold_seconds 0.25. -/
def W3CActions.swipe (data : List Timeline) (from_x from_y to_x to_y : ℚ)
    (element_uid : Option String) (press_seconds : ℚ) (swipe_seconds : Option ℚ)
    (hold_seconds : ℚ) : List Timeline :=
  let movement_from := (FingerMovement.new.with_xy from_x from_y).with_origin element_uid
  let movement_to :=
    ((FingerMovement.new.with_xy to_x to_y).with_origin element_uid).with_duration swipe_seconds
  let action :=
    FingerAction.up (FingerAction.pause (FingerAction.move (FingerAction.move
      (FingerAction.pause (FingerAction.down (FingerAction.move [] movement_from))
        press_seconds) movement_from) movement_to) hold_seconds)
  W3CActions.inject_touch_actions data [action]

/-- The two W3CActions operations that append timelines directly,
used to state identifier uniqueness over arbitrary call sequences. -/
inductive W3COp
  | keys (text : List Char)
  | touch (actions : List (List FingerPrim))

/-- Dispatch one W3COp call on the current W3CActions data. -/
def W3CActions.step (data : List Timeline) : W3COp → List Timeline
  | .keys text => W3CActions.send_keys data text
  | .touch actions => W3CActions.inject_touch_actions data actions

/-- Run a sequence of send_keys / inject_touch_actions calls. -/
def runW3C (data : List Timeline) : List W3COp → List Timeline
  | [] => data
  | op :: ops => runW3C (W3CActions.step data op) ops

/-! ### Legacy model: primitive builders (lines 252-465)

Each legacy primitive is a dict with an action discriminant and an
options sub-dict; the builder records model the options keys.
-/

/-- Options of a moveTo dict (TouchMovement builder, lines 252-297). -/
structure TouchMovement where
  x : Option ℚ
  y : Option ℚ
  element : Option String
deriving DecidableEq

/-- TouchMovement.__init__: empty options. -/
def TouchMovement.new : TouchMovement :=
  ⟨none, none, none⟩

/-- TouchMovement.with_xy. -/
def TouchMovement.with_xy (m : TouchMovement) (x y : ℚ) : TouchMovement :=
  { m with x := some x, y := some y }

/-- TouchMovement.with_origin: no-op on None. -/
def TouchMovement.with_origin (m : TouchMovement) (element_uid : Option String) :
    TouchMovement :=
  match element_uid with
  | none => m
  | some u => { m with element := some u }

/-- Options of a press dict (TouchPress builder, lines 300-357). -/
structure TouchPress where
  x : Option ℚ
  y : Option ℚ
  element : Option String
  pressure : Option ℚ
deriving DecidableEq

/-- TouchPress.__init__: empty options. -/
def TouchPress.new : TouchPress :=
  ⟨none, none, none, none⟩

/-- TouchPress.with_xy. -/
def TouchPress.with_xy (p : TouchPress) (x y : ℚ) : TouchPress :=
  { p with x := some x, y := some y }

/-- TouchPress.with_origin: no-op on None. -/
def TouchPress.with_origin (p : TouchPress) (element_uid : Option String) :
    TouchPress :=
  match element_uid with
  | none => p
  | some u => { p with element := some u }

/-- TouchPress.with_pressure. -/
def TouchPress.with_pressure (p : TouchPress) (pressure : ℚ) : TouchPress :=
  { p with pressure := some pressure }

/-- Options of a longPress dict (TouchLongPress builder, lines 360-405). -/
structure TouchLongPress where
  x : Option ℚ
  y : Option ℚ
  element : Option String
deriving DecidableEq

/-- TouchLongPress.__init__: empty options. -/
def TouchLongPress.new : TouchLongPress :=
  ⟨none, none, none⟩

/-- TouchLongPress.with_xy. -/
def TouchLongPress.with_xy (lp : TouchLongPress) (x y : ℚ) : TouchLongPress :=
  { lp with x := some x, y := some y }

/-- TouchLongPress.with_origin: no-op on None. -/
def TouchLongPress.with_origin (lp : TouchLongPress) (element_uid : Option String) :
    TouchLongPress :=
  match element_uid with
  | none => lp
  | some u => { lp with element := some u }

/-- Options of a tap dict (TouchTap builder, lines 408-465). -/
structure TouchTap where
  x : Option ℚ
  y : Option ℚ
  element : Option String
  count : Option ℤ
deriving DecidableEq

/-- TouchTap.__init__: empty options. -/
def TouchTap.new : TouchTap :=
  ⟨none, none, none, none⟩

/-- TouchTap.with_xy. -/
def TouchTap.with_xy (t : TouchTap) (x y : ℚ) : TouchTap :=
  { t with x := some x, y := some y }

/-- TouchTap.with_origin: no-op on None. -/
def TouchTap.with_origin (t : TouchTap) (element_uid : Option String) : TouchTap :=
  match element_uid with
  | none => t
  | some u => { t with element := some u }

/-- TouchTap.with_count. -/
def TouchTap.with_count (t : TouchTap) (count : ℤ) : TouchTap :=
  { t with count := some count }

/-! ### Legacy model: TouchActions (lines 468-613) -/

/-- One element of TouchActions.__data: a dict discriminated by its
action key.  wait carries options.ms; release and cancel carry no
options. -/
inductive TouchPrim
  | moveTo (m : TouchMovement)
  | press (p : TouchPress)
  | longPress (lp : TouchLongPress)
  | tap (t : TouchTap)
  | wait (ms : ℚ)
  | release
  | cancel
deriving DecidableEq

/-- TouchActions.move: appends the moveTo dict. -/
def TouchActions.move (data : List TouchPrim) (movement : TouchMovement) :
    List TouchPrim :=
  data ++ [TouchPrim.moveTo movement]

/-- TouchActions.press: appends the press dict. -/
def TouchActions.press (data : List TouchPrim) (p : TouchPress) : List TouchPrim :=
  data ++ [TouchPrim.press p]

/-- TouchActions.long_press: appends the longPress dict. -/
def TouchActions.long_press (data : List TouchPrim) (lp : TouchLongPress) :
    List TouchPrim :=
  data ++ [TouchPrim.longPress lp]

/-- TouchActions.tap: appends the tap dict. -/
def TouchActions.tap (data : List TouchPrim) (t : TouchTap) : List TouchPrim :=
  data ++ [TouchPrim.tap t]

/-- TouchActions.pause (lines 534-552): negative seconds are replaced
by the default 0.5, then a wait dict with options.ms = second*1000 is
appended.  Source default argument: 0.5. -/
def TouchActions.pause (data : List TouchPrim) (second : ℚ) : List TouchPrim :=
  data ++ [TouchPrim.wait (pauseMs second)]

/-- TouchActions.up: appends a release dict. -/
def TouchActions.up (data : List TouchPrim) : List TouchPrim :=
  data ++ [TouchPrim.release]

/-- TouchActions.cancel: appends a cancel dict. -/
def TouchActions.cancel (data : List TouchPrim) : List TouchPrim :=
  data ++ [TouchPrim.cancel]

/-! ### Legacy swipe interpolation (lines 572-613)

The source computes
  distance = sqrt((to_y-from_y)**2 + (to_x-from_x)**2)
  steps    = int(distance / delta)
with real square root and int() truncating toward zero.  Exactly:
  for delta > 0, steps = floor(sqrt(S)/delta) = Nat.sqrt (floor (S/delta^2))
  for delta < 0, steps = -floor(sqrt(S)/(-delta)) (truncation toward 0
    of a nonpositive quotient)
  for delta = 0, Python raises ZeroDivisionError before using steps,
    and the swipe model below returns none without consulting this
    value,
where S = (to_y-from_y)^2 + (to_x-from_x)^2 >= 0.  The identities
floor(sqrt(S)/d) = floor(sqrt(S/d^2)) (d > 0) and
floor(sqrt(x)) = Nat.sqrt (floor x) (x >= 0) make the definition below
the exact-arithmetic value of the source expression.
-/

/-- steps = int(distance / delta) of TouchActions.swipe, in exact
arithmetic. -/
def TouchActions.swipeSteps (from_x from_y to_x to_y delta : ℚ) : ℤ :=
  let distSq := (to_y - from_y) ^ 2 + (to_x - from_x) ^ 2
  if 0 < delta then (Nat.sqrt (Nat.floor (distSq / delta ^ 2)) : ℤ)
  else if delta < 0 then -(Nat.sqrt (Nat.floor (distSq / delta ^ 2)) : ℤ)
  else 0

/-- One iteration of the interpolation loop (line 608-609):
self.move(TouchMovement().with_xy(from_x + i*dx, from_y + i*dy)
  .with_origin(element_uid)).pause(interval). -/
def TouchActions.swipeStep (element_uid : Option String)
    (from_x from_y dx dy interval : ℚ) (data : List TouchPrim) (i : ℕ) :
    List TouchPrim :=
  TouchActions.pause
    (TouchActions.move data
      ((TouchMovement.new.with_xy (from_x + i * dx) (from_y + i * dy)).with_origin
        element_uid))
    interval

/-- TouchActions.swipe (lines 572-613).  none models ZeroDivisionError:
raised computing distance/delta when delta = 0, or computing dx when
steps = 0; in either case the exception propagates before any append.
Source defaults: press_seconds 0.25, swipe_seconds None, delta 10,
hold_seconds 0.25, up True. -/
def TouchActions.swipe (data : List TouchPrim) (from_x from_y to_x to_y : ℚ)
    (element_uid : Option String) (press_seconds : ℚ) (swipe_seconds : Option ℚ)
    (delta : ℚ) (hold_seconds : ℚ) (upFlag : Bool) : Option (List TouchPrim) :=
  match swipe_seconds with
  | none =>
      let d1 := TouchActions.pause
        (TouchActions.press data ((TouchPress.new.with_xy from_x from_y).with_origin element_uid))
        press_seconds
      let d2 := TouchActions.pause
        (TouchActions.move d1 ((TouchMovement.new.with_xy to_x to_y).with_origin element_uid))
        hold_seconds
      some (if upFlag then TouchActions.up d2 else d2)
  | some sw =>
      if delta = 0 then none
      else
        let steps := TouchActions.swipeSteps from_x from_y to_x to_y delta
        if steps = 0 then none
        else
          let dx := (to_x - from_x) / (steps : ℚ)
          let dy := (to_y - from_y) / (steps : ℚ)
          let interval := sw / (steps : ℚ)
          let d1 := TouchActions.pause
            (TouchActions.press data
              ((TouchPress.new.with_xy from_x from_y).with_origin element_uid))
            press_seconds
          let d2 := (List.range' 1 steps.toNat).foldl
            (TouchActions.swipeStep element_uid from_x from_y dx dy interval) d1
          let d3 := TouchActions.pause
            (TouchActions.move d2
              ((TouchMovement.new.with_xy (from_x + (steps : ℚ) * dx)
                (from_y + (steps : ℚ) * dy)).with_origin element_uid))
            hold_seconds
          some (if upFlag then TouchActions.up d3 else d3)

/-! ### Call-order runners for the append-only invariant -/

/-- The FingerAction append operations. -/
inductive FingerOp
  | move (movement : FingerMovement)
  | down
  | up
  | pause (second : ℚ)

/-- Dispatch one FingerAction call. -/
def FingerAction.step (data : List FingerPrim) : FingerOp → List FingerPrim
  | .move m => FingerAction.move data m
  | .down => FingerAction.down data
  | .up => FingerAction.up data
  | .pause s => FingerAction.pause data s

/-- The single primitive a FingerAction operation appends. -/
def FingerOp.denote : FingerOp → FingerPrim
  | .move m => FingerPrim.pointerMove m
  | .down => FingerPrim.pointerDown
  | .up => FingerPrim.pointerUp
  | .pause s => FingerPrim.pause (pauseMs s)

/-- Run a sequence of FingerAction calls. -/
def runFinger (data : List FingerPrim) : List FingerOp → List FingerPrim
  | [] => data
  | op :: ops => runFinger (FingerAction.step data op) ops

/-- The TouchActions append operations (swipe excluded: it is a
composite of these). -/
inductive TouchOp
  | move (movement : TouchMovement)
  | press (p : TouchPress)
  | long_press (lp : TouchLongPress)
  | tap (t : TouchTap)
  | pause (second : ℚ)
  | up
  | cancel

/-- Dispatch one TouchActions call. -/
def TouchActions.step (data : List TouchPrim) : TouchOp → List TouchPrim
  | .move m => TouchActions.move data m
  | .press p => TouchActions.press data p
  | .long_press lp => TouchActions.long_press data lp
  | .tap t => TouchActions.tap data t
  | .pause s => TouchActions.pause data s
  | .up => TouchActions.up data
  | .cancel => TouchActions.cancel data

/-- The single primitive a TouchActions operation appends. -/
def TouchOp.denote : TouchOp → TouchPrim
  | .move m => TouchPrim.moveTo m
  | .press p => TouchPrim.press p
  | .long_press lp => TouchPrim.longPress lp
  | .tap t => TouchPrim.tap t
  | .pause s => TouchPrim.wait (pauseMs s)
  | .up => TouchPrim.release
  | .cancel => TouchPrim.cancel

/-- Run a sequence of TouchActions calls. -/
def runTouch (data : List TouchPrim) : List TouchOp → List TouchPrim
  | [] => data
  | op :: ops => runTouch (TouchActions.step data op) ops

/-! ### Helper lemmas -/

theorem pauseMs_of_nonneg (s : ℚ) (h : 0 ≤ s) : pauseMs s = s * 1000 := by
  rw [pauseMs, if_neg (not_lt.mpr h)]

theorem pauseMs_of_neg (s : ℚ) (h : s < 0) : pauseMs s = 500 := by
  rw [pauseMs, if_pos h]
  norm_num

theorem fingerMovement_build (x y : ℚ) (element_uid : Option String) :
    (FingerMovement.new.with_xy x y).with_origin element_uid =
      ⟨some x, some y, element_uid, none⟩ := by
  cases element_uid <;> rfl

theorem fingerMovement_build_duration (x y : ℚ) (element_uid : Option String)
    (second : Option ℚ) :
    ((FingerMovement.new.with_xy x y).with_origin element_uid).with_duration second =
      ⟨some x, some y, element_uid, second.map (fun s => s * 1000)⟩ := by
  cases element_uid <;> cases second <;> rfl

theorem touchMovement_build (x y : ℚ) (element_uid : Option String) :
    (TouchMovement.new.with_xy x y).with_origin element_uid =
      ⟨some x, some y, element_uid⟩ := by
  cases element_uid <;> rfl

theorem touchPress_build (x y : ℚ) (element_uid : Option String) :
    (TouchPress.new.with_xy x y).with_origin element_uid =
      ⟨some x, some y, element_uid, none⟩ := by
  cases element_uid <;> rfl

theorem foldl_swipeStep (element_uid : Option String) (fx fy dx dy interval : ℚ) :
    ∀ (l : List ℕ) (data : List TouchPrim),
      l.foldl (TouchActions.swipeStep element_uid fx fy dx dy interval) data =
        data ++ l.flatMap (fun i =>
          [TouchPrim.moveTo ⟨some (fx + i * dx), some (fy + i * dy), element_uid⟩,
           TouchPrim.wait (pauseMs interval)]) := by
  intro l
  induction l with
  | nil => intro data; simp
  | cons i rest ih =>
    intro data
    rw [List.foldl_cons, ih, List.flatMap_cons]
    show TouchActions.swipeStep element_uid fx fy dx dy interval data i ++ _ = _
    rw [TouchActions.swipeStep, TouchActions.pause, TouchActions.move,
      touchMovement_build]
    simp

/-- Interpolated-mode swipe, fully unfolded, for any step count >= 1.
The steps variable is pinned by hypothesis so the statement can reuse
it. -/
theorem swipe_interp_eq (data : List TouchPrim) (from_x from_y to_x to_y : ℚ)
    (element_uid : Option String) (press_seconds sw hold_seconds : ℚ) (delta : ℚ)
    (upFlag : Bool) (steps : ℤ)
    (hsteps : TouchActions.swipeSteps from_x from_y to_x to_y delta = steps)
    (h1 : 1 ≤ steps) :
    TouchActions.swipe data from_x from_y to_x to_y element_uid press_seconds
        (some sw) delta hold_seconds upFlag =
      some (data ++
        ([TouchPrim.press ⟨some from_x, some from_y, element_uid, none⟩,
          TouchPrim.wait (pauseMs press_seconds)] ++
         (List.range' 1 steps.toNat).flatMap (fun i =>
           [TouchPrim.moveTo
              ⟨some (from_x + i * ((to_x - from_x) / (steps : ℚ))),
               some (from_y + i * ((to_y - from_y) / (steps : ℚ))), element_uid⟩,
            TouchPrim.wait (pauseMs (sw / (steps : ℚ)))]) ++
         ([TouchPrim.moveTo
             ⟨some (from_x + (steps : ℚ) * ((to_x - from_x) / (steps : ℚ))),
              some (from_y + (steps : ℚ) * ((to_y - from_y) / (steps : ℚ))),
              element_uid⟩,
           TouchPrim.wait (pauseMs hold_seconds)] ++
          if upFlag then [TouchPrim.release] else []))) := by
  have hδ : delta ≠ 0 := by
    intro h0
    rw [h0] at hsteps
    rw [TouchActions.swipeSteps] at hsteps
    norm_num at hsteps
    omega
  have hne : steps ≠ 0 := by omega
  rw [TouchActions.swipe]
  rw [if_neg hδ, hsteps, if_neg hne]
  simp only [foldl_swipeStep, TouchActions.pause, TouchActions.press,
    TouchActions.move, TouchActions.up, touchPress_build, touchMovement_build]
  cases upFlag <;> simp

theorem runFinger_append (ops : List FingerOp) :
    ∀ data, runFinger data ops = data ++ ops.map FingerOp.denote := by
  induction ops with
  | nil => intro data; simp [runFinger]
  | cons op rest ih =>
    intro data
    rw [runFinger, ih, List.map_cons]
    cases op <;>
      simp [FingerAction.step, FingerAction.move, FingerAction.down,
        FingerAction.up, FingerAction.pause, FingerOp.denote]

theorem runTouch_append (ops : List TouchOp) :
    ∀ data, runTouch data ops = data ++ ops.map TouchOp.denote := by
  induction ops with
  | nil => intro data; simp [runTouch]
  | cons op rest ih =>
    intro data
    rw [runTouch, ih, List.map_cons]
    cases op <;>
      simp [TouchActions.step, TouchActions.move, TouchActions.press,
        TouchActions.long_press, TouchActions.tap, TouchActions.pause,
        TouchActions.up, TouchActions.cancel, TouchOp.denote]

/-! ### Identifier bookkeeping for the modern action set -/

/-- Every timeline of the list carries the id its insertion position
dictates: kind tag followed by the decimal index. -/
def idsIndexed (l : List Timeline) : Prop :=
  ∀ i (h : i < l.length),
    (l.get ⟨i, h⟩).id = (l.get ⟨i, h⟩).kindTag ++ Nat.repr i

theorem idsIndexed_nil : idsIndexed [] := by
  intro i h
  simp at h

theorem idsIndexed_snoc (l : List Timeline) (t : Timeline)
    (hl : idsIndexed l) (ht : t.id = t.kindTag ++ Nat.repr l.length) :
    idsIndexed (l ++ [t]) := by
  intro i h
  rcases Nat.lt_or_ge i l.length with hi | hi
  · have e : (l ++ [t]).get ⟨i, h⟩ = l.get ⟨i, hi⟩ := by
      simp [List.get_eq_getElem, List.getElem_append_left hi]
    rw [e]
    exact hl i hi
  · have hlen : (l ++ [t]).length = l.length + 1 := by simp
    have hi' : i = l.length := by omega
    have e : (l ++ [t]).get ⟨i, h⟩ = t := by
      simp only [List.get_eq_getElem]
      exact List.getElem_concat_length l t i hi' _
    rw [e, hi']
    exact ht

theorem idsIndexed_send_keys (l : List Timeline) (text : List Char)
    (hl : idsIndexed l) : idsIndexed (W3CActions.send_keys l text) :=
  idsIndexed_snoc l _ hl rfl

theorem idsIndexed_inject (actions : List (List FingerPrim)) :
    ∀ l, idsIndexed l → idsIndexed (W3CActions.inject_touch_actions l actions) := by
  induction actions with
  | nil => intro l hl; exact hl
  | cons a rest ih =>
    intro l hl
    rw [W3CActions.inject_touch_actions]
    exact ih _ (idsIndexed_snoc l _ hl rfl)

theorem idsIndexed_run (ops : List W3COp) :
    ∀ l, idsIndexed l → idsIndexed (runW3C l ops) := by
  induction ops with
  | nil => intro l hl; exact hl
  | cons op rest ih =>
    intro l hl
    rw [runW3C]
    apply ih
    cases op with
    | keys text => exact idsIndexed_send_keys l text hl
    | touch actions => exact idsIndexed_inject actions l hl

theorem kindTag_cases (t : Timeline) :
    t.kindTag = "keyboard" ∨ t.kindTag = "finger" := by
  cases t with
  | key i a => left; rfl
  | pointer i p a => right; rfl

theorem tagged_id_inj (p q : String) (hp : p = "keyboard" ∨ p = "finger")
    (hq : q = "keyboard" ∨ q = "finger") (i j : ℕ)
    (h : p ++ Nat.repr i = q ++ Nat.repr j) : i = j := by
  rcases hp with hp | hp <;> rcases hq with hq | hq <;> subst hp <;> subst hq
  · exact nat_repr_injective i j (string_append_cancel _ _ _ h)
  · exact absurd h (keyboard_ne_finger_append _ _)
  · exact absurd h.symm (keyboard_ne_finger_append _ _)
  · exact nat_repr_injective i j (string_append_cancel _ _ _ h)

theorem idsIndexed_distinct (l : List Timeline) (hl : idsIndexed l)
    (i j : ℕ) (hi : i < l.length) (hj : j < l.length) (hne : i ≠ j) :
    (l.get ⟨i, hi⟩).id ≠ (l.get ⟨j, hj⟩).id := by
  intro h
  rw [hl i hi, hl j hj] at h
  exact hne (tagged_id_inj _ _ (kindTag_cases _) (kindTag_cases _) i j h)

/-! ### Claim theorems -/

/-- Claim C2 (code bug witness): W3CActions.send_keys stores one
generator object per character in the actions list, not the flat
2*len(text) sequence of keyDown/keyUp dicts: at text = ab the actions
list has 2 generator elements and differs from the flat 4-dict list. -/
theorem claim_C2_send_keys_generators :
    W3CActions.send_keys [] ['a', 'b'] =
      [Timeline.key "keyboard0"
        [KeyEntry.gen [("keyDown", 'a'), ("keyUp", 'a')],
         KeyEntry.gen [("keyDown", 'b'), ("keyUp", 'b')]]] ∧
    W3CActions.send_keys [] ['a', 'b'] ≠
      [Timeline.key "keyboard0"
        [KeyEntry.dict "keyDown" 'a', KeyEntry.dict "keyUp" 'a',
         KeyEntry.dict "keyDown" 'b', KeyEntry.dict "keyUp" 'b']] := by
  constructor
  · rfl
  · decide

/-- Claim C4: W3CActions.tap at the default hold duration 0.1 appends
one pointer timeline of exactly 4 primitives: a pointerMove to (x, y)
with no duration key, pointerDown, a pause storing 0.1*1000 = 100 ms,
and pointerUp. -/
theorem claim_C4_tap_shape (data : List Timeline) (x y : ℚ) :
    W3CActions.tap data x y none (1 / 10) =
      data ++ [Timeline.pointer ("finger" ++ Nat.repr data.length) "touch"
        [FingerPrim.pointerMove ⟨some x, some y, none, none⟩,
         FingerPrim.pointerDown,
         FingerPrim.pause 100,
         FingerPrim.pointerUp]] := by
  rw [W3CActions.tap]
  simp only [W3CActions.inject_touch_actions, FingerAction.up, FingerAction.pause,
    FingerAction.down, FingerAction.move, fingerMovement_build,
    pauseMs_of_nonneg (1 / 10 : ℚ) (by norm_num)]
  norm_num

/-- Claim C5: for equal arguments (any coordinates, origin, nonnegative
hold seconds) W3CActions.press and W3CActions.tap append identical
pointer timelines; the two helpers differ only in their default hold
duration (2.0 s for press, 0.1 s for tap). -/
theorem claim_C5_press_eq_tap (data : List Timeline) (x y : ℚ)
    (element_uid : Option String) (second : ℚ) (_h : 0 ≤ second) :
    W3CActions.press data x y element_uid second =
      W3CActions.tap data x y element_uid second := rfl

theorem claim_C5_witness :
    W3CActions.press [] 3 4 (some "node") 2 =
      W3CActions.tap [] 3 4 (some "node") 2 :=
  claim_C5_press_eq_tap [] 3 4 (some "node") 2 (by norm_num)

/-- Claim C6: W3CActions.swipe appends one finger timeline of exactly 7
primitives: move(from), pointerDown, pause(press_seconds),
move(from) restated, move(to) carrying duration swipe_seconds*1000 when
given and no duration key when None, pause(hold_seconds), pointerUp. -/
theorem claim_C6_w3c_swipe_shape (data : List Timeline)
    (from_x from_y to_x to_y : ℚ) (element_uid : Option String)
    (press_seconds : ℚ) (swipe_seconds : Option ℚ) (hold_seconds : ℚ)
    (hp : 0 ≤ press_seconds) (hh : 0 ≤ hold_seconds) :
    W3CActions.swipe data from_x from_y to_x to_y element_uid press_seconds
        swipe_seconds hold_seconds =
      data ++ [Timeline.pointer ("finger" ++ Nat.repr data.length) "touch"
        [FingerPrim.pointerMove ⟨some from_x, some from_y, element_uid, none⟩,
         FingerPrim.pointerDown,
         FingerPrim.pause (press_seconds * 1000),
         FingerPrim.pointerMove ⟨some from_x, some from_y, element_uid, none⟩,
         FingerPrim.pointerMove ⟨some to_x, some to_y, element_uid,
           swipe_seconds.map (fun s => s * 1000)⟩,
         FingerPrim.pause (hold_seconds * 1000),
         FingerPrim.pointerUp]] := by
  cases swipe_seconds <;>
    (rw [W3CActions.swipe]
     simp only [W3CActions.inject_touch_actions, FingerAction.up, FingerAction.pause,
       FingerAction.down, FingerAction.move, fingerMovement_build,
       FingerMovement.with_duration, pauseMs_of_nonneg press_seconds hp,
       pauseMs_of_nonneg hold_seconds hh]
     norm_num)

theorem claim_C6_witness :
    W3CActions.swipe [] 1 2 3 4 (some "el") (1 / 4) (some (3 / 2)) (1 / 4) =
      [Timeline.pointer "finger0" "touch"
        [FingerPrim.pointerMove ⟨some 1, some 2, some "el", none⟩,
         FingerPrim.pointerDown,
         FingerPrim.pause 250,
         FingerPrim.pointerMove ⟨some 1, some 2, some "el", none⟩,
         FingerPrim.pointerMove ⟨some 3, some 4, some "el", some 1500⟩,
         FingerPrim.pause 250,
         FingerPrim.pointerUp]] := by
  have h := claim_C6_w3c_swipe_shape [] 1 2 3 4 (some "el") (1 / 4) (some (3 / 2))
    (1 / 4) (by norm_num) (by norm_num)
  rw [h]
  norm_num
  rfl

/-- Claim C7: for any strictly negative seconds value, FingerAction.pause
and TouchActions.pause both append a pause/wait primitive storing
exactly 0.5*1000 = 500 ms; neither rejects the input. -/
theorem claim_C7_negative_pause (fdata : List FingerPrim) (tdata : List TouchPrim)
    (second : ℚ) (h : second < 0) :
    FingerAction.pause fdata second = fdata ++ [FingerPrim.pause 500] ∧
    TouchActions.pause tdata second = tdata ++ [TouchPrim.wait 500] := by
  rw [FingerAction.pause, TouchActions.pause, pauseMs_of_neg second h]
  exact ⟨rfl, rfl⟩

theorem claim_C7_witness :
    FingerAction.pause [] (-1000000) = [FingerPrim.pause 500] ∧
    TouchActions.pause [] (-1000000) = [TouchPrim.wait 500] :=
  claim_C7_negative_pause [] [] (-1000000) (by norm_num)

/-- Claim C9: every sequence of append operations on FingerAction
(move, down, up, pause) and on TouchActions (move, press, long_press,
tap, pause, up, cancel) yields exactly the appended primitives in call
order: each call appends one element at the end and leaves the earlier
elements unchanged. -/
theorem claim_C9_append_order (fdata : List FingerPrim) (fops : List FingerOp)
    (tdata : List TouchPrim) (tops : List TouchOp) :
    runFinger fdata fops = fdata ++ fops.map FingerOp.denote ∧
    runTouch tdata tops = tdata ++ tops.map TouchOp.denote :=
  ⟨runFinger_append fops fdata, runTouch_append tops tdata⟩

/-- Claim C1 (counterexample): an interpolated swipe whose step count
floor(distance/delta) is 0 — here start = end — does not run to
completion: the dx computation divides by zero and the call raises
(modelled by none), so the claimed
press/pause/move/pause/release sequence is not produced. -/
theorem claim_C1_counterexample :
    TouchActions.swipe [] 0 0 0 0 none (1 / 4) (some 1) 10 (1 / 4) true = none ∧
    TouchActions.swipe [] 0 0 0 0 none (1 / 4) (some 1) 10 (1 / 4) true ≠
      some [TouchPrim.press ⟨some 0, some 0, none, none⟩,
            TouchPrim.wait 250,
            TouchPrim.moveTo ⟨some 0, some 0, none⟩,
            TouchPrim.wait 250,
            TouchPrim.release] := by
  have hs : TouchActions.swipeSteps 0 0 0 0 10 = 0 := by
    simp [TouchActions.swipeSteps]
  have h : TouchActions.swipe [] 0 0 0 0 none (1 / 4) (some 1) 10 (1 / 4) true = none := by
    rw [TouchActions.swipe, if_neg (by norm_num : (10 : ℚ) ≠ 0)]
    simp [hs]
  exact ⟨h, by rw [h]; simp⟩

/-- Claim C1 (amended): in interpolated mode the call raises
ZeroDivisionError (modelled by none) exactly when the computed step
count is 0 — in particular when start = end, and also when delta = 0;
nothing is appended in that case.  For every nonzero step count the
call completes normally. -/
theorem claim_C1_amended (data : List TouchPrim) (from_x from_y to_x to_y : ℚ)
    (element_uid : Option String) (press_seconds sw delta hold_seconds : ℚ)
    (upFlag : Bool) :
    TouchActions.swipe data from_x from_y to_x to_y element_uid press_seconds
        (some sw) delta hold_seconds upFlag = none ↔
      TouchActions.swipeSteps from_x from_y to_x to_y delta = 0 := by
  rw [TouchActions.swipe]
  by_cases hδ : delta = 0
  · rw [if_pos hδ]
    subst hδ
    simp [TouchActions.swipeSteps]
  · rw [if_neg hδ]
    by_cases hs : TouchActions.swipeSteps from_x from_y to_x to_y delta = 0
    · simp [hs]
    · simp [hs]

/-- Claim C3: interpolated swipe with step count >= 1 appends exactly
press(start), pause(press_seconds), then for i = 1..steps a move to
start + i*(dx, dy) followed by a pause of swipe_seconds/steps, then one
extra move to start + steps*(dx, dy), pause(hold_seconds) and release
(up = true), with dx = (to_x - from_x)/steps, dy = (to_y - from_y)/steps. -/
theorem claim_C3_interp_swipe (data : List TouchPrim) (from_x from_y to_x to_y : ℚ)
    (element_uid : Option String) (press_seconds sw delta hold_seconds : ℚ)
    (steps : ℤ)
    (hsteps : TouchActions.swipeSteps from_x from_y to_x to_y delta = steps)
    (h1 : 1 ≤ steps) (hp : 0 ≤ press_seconds) (hsw : 0 ≤ sw)
    (hh : 0 ≤ hold_seconds) :
    TouchActions.swipe data from_x from_y to_x to_y element_uid press_seconds
        (some sw) delta hold_seconds true =
      some (data ++
        ([TouchPrim.press ⟨some from_x, some from_y, element_uid, none⟩,
          TouchPrim.wait (press_seconds * 1000)] ++
         (List.range' 1 steps.toNat).flatMap (fun i =>
           [TouchPrim.moveTo
              ⟨some (from_x + i * ((to_x - from_x) / (steps : ℚ))),
               some (from_y + i * ((to_y - from_y) / (steps : ℚ))), element_uid⟩,
            TouchPrim.wait (sw / (steps : ℚ) * 1000)]) ++
         [TouchPrim.moveTo
            ⟨some (from_x + (steps : ℚ) * ((to_x - from_x) / (steps : ℚ))),
             some (from_y + (steps : ℚ) * ((to_y - from_y) / (steps : ℚ))),
             element_uid⟩,
          TouchPrim.wait (hold_seconds * 1000),
          TouchPrim.release])) := by
  have hqpos : (0 : ℚ) ≤ (steps : ℚ) := by
    have : (0 : ℤ) ≤ steps := by omega
    exact_mod_cast this
  rw [swipe_interp_eq data from_x from_y to_x to_y element_uid press_seconds sw
    hold_seconds delta true steps hsteps h1]
  rw [pauseMs_of_nonneg press_seconds hp, pauseMs_of_nonneg hold_seconds hh,
    pauseMs_of_nonneg (sw / (steps : ℚ)) (div_nonneg hsw hqpos)]
  simp

theorem claim_C3_witness :
    TouchActions.swipe [] 0 0 100 0 none (1 / 4) (some 1) 10 (1 / 4) true =
      some [TouchPrim.press ⟨some 0, some 0, none, none⟩,
            TouchPrim.wait 250,
            TouchPrim.moveTo ⟨some 10, some 0, none⟩, TouchPrim.wait 100,
            TouchPrim.moveTo ⟨some 20, some 0, none⟩, TouchPrim.wait 100,
            TouchPrim.moveTo ⟨some 30, some 0, none⟩, TouchPrim.wait 100,
            TouchPrim.moveTo ⟨some 40, some 0, none⟩, TouchPrim.wait 100,
            TouchPrim.moveTo ⟨some 50, some 0, none⟩, TouchPrim.wait 100,
            TouchPrim.moveTo ⟨some 60, some 0, none⟩, TouchPrim.wait 100,
            TouchPrim.moveTo ⟨some 70, some 0, none⟩, TouchPrim.wait 100,
            TouchPrim.moveTo ⟨some 80, some 0, none⟩, TouchPrim.wait 100,
            TouchPrim.moveTo ⟨some 90, some 0, none⟩, TouchPrim.wait 100,
            TouchPrim.moveTo ⟨some 100, some 0, none⟩, TouchPrim.wait 100,
            TouchPrim.moveTo ⟨some 100, some 0, none⟩,
            TouchPrim.wait 250,
            TouchPrim.release] := by
  have hfloor : Nat.floor ((((0 : ℚ) - 0) ^ 2 + ((100 : ℚ) - 0) ^ 2) / 10 ^ 2) = 100 := by
    rw [Nat.floor_eq_iff (by positivity)]
    constructor <;> norm_num
  have hsqrt : Nat.sqrt 100 = 10 := by
    have hlo : 10 ≤ Nat.sqrt 100 := Nat.le_sqrt.mpr (by norm_num)
    have hhi : Nat.sqrt 100 < 11 := Nat.sqrt_lt.mpr (by norm_num)
    omega
  have hs : TouchActions.swipeSteps 0 0 100 0 10 = 10 := by
    simp only [TouchActions.swipeSteps]
    rw [if_pos (by norm_num : (0 : ℚ) < 10), hfloor, hsqrt]
    norm_num
  have h := claim_C3_interp_swipe [] 0 0 100 0 none (1 / 4) 1 10 (1 / 4) 10 hs
    (by norm_num) (by norm_num) (by norm_num) (by norm_num)
  rw [h]
  norm_num [List.range', List.flatMap]

/-- Claim C10: in exact rational arithmetic, the terminal move of an
interpolated swipe with step count >= 1 lands exactly on (to_x, to_y):
from_x + steps*((to_x - from_x)/steps) = to_x and likewise for y,
whether or not steps divides the span evenly. -/
theorem claim_C10_terminal_exact (data : List TouchPrim)
    (from_x from_y to_x to_y : ℚ) (element_uid : Option String)
    (press_seconds sw delta hold_seconds : ℚ) (steps : ℤ)
    (hsteps : TouchActions.swipeSteps from_x from_y to_x to_y delta = steps)
    (h1 : 1 ≤ steps) :
    ∃ pre, TouchActions.swipe data from_x from_y to_x to_y element_uid
        press_seconds (some sw) delta hold_seconds true =
      some (pre ++ [TouchPrim.moveTo ⟨some to_x, some to_y, element_uid⟩,
                    TouchPrim.wait (pauseMs hold_seconds),
                    TouchPrim.release]) := by
  have hne : ((steps : ℚ)) ≠ 0 := Int.cast_ne_zero.mpr (by omega)
  have hx : from_x + (steps : ℚ) * ((to_x - from_x) / (steps : ℚ)) = to_x := by
    field_simp
  have hy : from_y + (steps : ℚ) * ((to_y - from_y) / (steps : ℚ)) = to_y := by
    field_simp
  rw [swipe_interp_eq data from_x from_y to_x to_y element_uid press_seconds sw
    hold_seconds delta true steps hsteps h1, hx, hy]
  refine ⟨data ++
    ([TouchPrim.press ⟨some from_x, some from_y, element_uid, none⟩,
      TouchPrim.wait (pauseMs press_seconds)] ++
     (List.range' 1 steps.toNat).flatMap (fun i =>
       [TouchPrim.moveTo
          ⟨some (from_x + i * ((to_x - from_x) / (steps : ℚ))),
           some (from_y + i * ((to_y - from_y) / (steps : ℚ))), element_uid⟩,
        TouchPrim.wait (pauseMs (sw / (steps : ℚ)))])), ?_⟩
  simp

theorem claim_C10_witness :
    ∃ pre, TouchActions.swipe [] 0 0 105 0 none (1 / 4) (some 1) 10 (1 / 4) true =
      some (pre ++ [TouchPrim.moveTo ⟨some 105, some 0, none⟩,
                    TouchPrim.wait 250, TouchPrim.release]) := by
  have hfloor : Nat.floor ((((0 : ℚ) - 0) ^ 2 + ((105 : ℚ) - 0) ^ 2) / 10 ^ 2) = 110 := by
    rw [Nat.floor_eq_iff (by positivity)]
    constructor <;> norm_num
  have hsqrt : Nat.sqrt 110 = 10 := by
    have hlo : 10 ≤ Nat.sqrt 110 := Nat.le_sqrt.mpr (by norm_num)
    have hhi : Nat.sqrt 110 < 11 := Nat.sqrt_lt.mpr (by norm_num)
    omega
  have hs : TouchActions.swipeSteps 0 0 105 0 10 = 10 := by
    simp only [TouchActions.swipeSteps]
    rw [if_pos (by norm_num : (0 : ℚ) < 10), hfloor, hsqrt]
    norm_num
  have h := claim_C10_terminal_exact [] 0 0 105 0 none (1 / 4) 1 10 (1 / 4) 10 hs
    (by norm_num)
  have e : pauseMs (1 / 4 : ℚ) = 250 := by
    rw [pauseMs_of_nonneg (1 / 4 : ℚ) (by norm_num)]
    norm_num
  rw [e] at h
  exact h

/-- Claim C8: over any sequence of send_keys / inject_touch_actions
calls starting from an empty W3CActions set, every appended timeline
gets id kindTag ++ decimal(index of insertion) — the set length at the
moment of insertion — and all ids in the resulting set are pairwise
distinct; in particular two finger timelines and one key timeline give
the three distinct ids finger0, keyboard1, finger2. -/
theorem claim_C8_identifier_unique (ops : List W3COp) :
    (∀ i (h : i < (runW3C [] ops).length),
      ((runW3C [] ops).get ⟨i, h⟩).id =
        ((runW3C [] ops).get ⟨i, h⟩).kindTag ++ Nat.repr i) ∧
    (∀ i j (hi : i < (runW3C [] ops).length) (hj : j < (runW3C [] ops).length),
      i ≠ j →
        ((runW3C [] ops).get ⟨i, hi⟩).id ≠ ((runW3C [] ops).get ⟨j, hj⟩).id) ∧
    (runW3C [] [W3COp.touch [[]], W3COp.keys ['a'], W3COp.touch [[]]]).map
        Timeline.id = ["finger0", "keyboard1", "finger2"] := by
  have hidx := idsIndexed_run ops [] idsIndexed_nil
  exact ⟨hidx,
    fun i j hi hj hne => idsIndexed_distinct (runW3C [] ops) hidx i j hi hj hne,
    rfl⟩

theorem claim_C8_witness :
    ((runW3C [] [W3COp.touch [[], []], W3COp.keys ['a']]).get ⟨0, by decide⟩).id ≠
      ((runW3C [] [W3COp.touch [[], []], W3COp.keys ['a']]).get ⟨2, by decide⟩).id :=
  (claim_C8_identifier_unique [W3COp.touch [[], []], W3COp.keys ['a']]).2.1
    0 2 (by decide) (by decide) (by decide)
